import Mathlib

/-!
Verification development for the rightcodes-dashboard-mini browser extension.

The background service worker (src file with `refreshDashboardData`) and the
popup UI (src/ui/app.js) are shallowly embedded below.  JavaScript strings
are Lean `String`s, JS `undefined`/`null` fields are `Option`s, thrown JS
exceptions are `Except.error` carrying the message string, and the
browser/DOM environment consumed by the background code is passed in
explicitly as data (an environment record or a static page model).
-/

/-! ## String helpers mirroring the JS string operations used by the source -/

/-- Whitespace test used for the JS regex class `\s` as it occurs in the
source's `normalize`, balance and quota patterns (the texts involved only
contain ASCII whitespace). -/
def isWs (c : Char) : Bool := c = ' ' || c = '\t' || c = '\n' || c = '\r'

/-- `leadMatch sub s` is true when `s` starts with `sub` (JS `String.startsWith`
on the char-list level). -/
def leadMatch : List Char → List Char → Bool
  | [], _ => true
  | _ :: _, [] => false
  | c :: cs, d :: ds => c = d && leadMatch cs ds

def inclAux (sub : List Char) : List Char → Bool
  | [] => leadMatch sub []
  | c :: rest => leadMatch sub (c :: rest) || inclAux sub rest

/-- JS `s.includes(sub)`. -/
def strIncludes (s sub : String) : Bool := inclAux sub.data s.data

/-- JS `s.startsWith(pre)`. -/
def jsStartsWith (s pre : String) : Bool := leadMatch pre.data s.data

/-- Replace each maximal whitespace run by a single space
(JS `replace(/\s+/g, " ")`); the flag records whether the previous kept
character position was inside a whitespace run. -/
def collapseWsAux : List Char → Bool → List Char
  | [], _ => []
  | c :: rest, prevWs =>
    if isWs c then
      if prevWs then collapseWsAux rest true else ' ' :: collapseWsAux rest true
    else c :: collapseWsAux rest false

def trimWs (l : List Char) : List Char :=
  ((l.dropWhile isWs).reverse.dropWhile isWs).reverse

/-- The source's `normalize`: `String(s ?? "").replace(/\s+/g, " ").trim()`.
The `?? ""` coercion of a missing value is modelled at each call site by
`Option.getD "" `. -/
def normText (s : String) : String := String.mk (trimWs (collapseWsAux s.data false))

/-- JS `toLowerCase` as used by the source (the texts involved only exercise
the ASCII range, where `Char.toLower` agrees with JS). -/
def lowerStr (s : String) : String := String.mk (s.data.map Char.toLower)

/-- Remove the first occurrence of a character
(JS `String.replace("%", "")` replaces only the first match). -/
def removeFirst (t : Char) : List Char → List Char
  | [] => []
  | c :: rest => if c = t then rest else c :: removeFirst t rest

/-- Greedy nonempty run of the regex class `[0-9.]`, returning the captured
run and the rest of the input. -/
def numRun (cs : List Char) : Option (String × List Char) :=
  let run := cs.takeWhile (fun c => c.isDigit || c = '.')
  if run = [] then none else some (String.mk run, cs.drop run.length)

/-- Leftmost-match regex scan: try the matcher at every suffix, as the JS
regex engine does for an unanchored pattern.  (The patterns below cannot
match the empty string, so the final empty position is irrelevant.) -/
def scanMatch (f : List Char → Option α) : List Char → Option α
  | [] => none
  | c :: rest =>
    match f (c :: rest) with
    | some r => some r
    | none => scanMatch f rest

/-- Matcher for the balance pattern `/余额\s*[:：]\s*\$\s*([0-9.]+)/` at one
position; returns the captured digit group. -/
def balanceMatchAt (cs : List Char) : Option String :=
  match cs with
  | '余' :: '额' :: rest =>
    (match rest.dropWhile isWs with
     | c :: rest2 =>
       if c = ':' || c = '：' then
         (match rest2.dropWhile isWs with
          | '$' :: rest3 =>
            (match numRun (rest3.dropWhile isWs) with
             | some (d, _) => some d
             | none => none)
          | _ => none)
       else none
     | [] => none)
  | _ => none

/-- JS `mainText.match(/余额\s*[:：]\s*\$\s*([0-9.]+)/)`, capturing group 1. -/
def balanceMatch (s : String) : Option String := scanMatch balanceMatchAt s.data

/-- Matcher for the quota pattern `/\$\s*([0-9.]+)\s*\/\s*\$\s*([0-9.]+)/` at
one position; returns the two captured digit groups. -/
def quotaMatchAt (cs : List Char) : Option (String × String) :=
  match cs with
  | '$' :: rest =>
    (match numRun (rest.dropWhile isWs) with
     | some (a, rest2) =>
       (match rest2.dropWhile isWs with
        | '/' :: rest3 =>
          (match rest3.dropWhile isWs with
           | '$' :: rest4 =>
             (match numRun (rest4.dropWhile isWs) with
              | some (b, _) => some (a, b)
              | none => none)
           | _ => none)
        | _ => none)
     | none => none)
  | _ => none

/-- JS `quotaRaw.match(/\$\s*([0-9.]+)\s*\/\s*\$\s*([0-9.]+)/)`. -/
def quotaMatch (s : String) : Option (String × String) := scanMatch quotaMatchAt s.data

/-! ## Preferences (`getPrefs` in the service worker and in src/ui/app.js) -/

structure Prefs where
  autoRefresh : Bool
  autoRefreshExplicit : Bool
  refreshMinutes : Nat
  closeTempTab : Bool
deriving DecidableEq, Repr

/-- `DEFAULT_PREFS` (identical in both files). -/
def DEFAULT_PREFS : Prefs :=
  { autoRefresh := false, autoRefreshExplicit := false, refreshMinutes := 5, closeTempTab := true }

/-- A value stored under the prefs key: each field may be absent, in which
case the spread `{ ...DEFAULT_PREFS, ...stored }` keeps the default. -/
structure StoredPrefs where
  autoRefresh : Option Bool
  autoRefreshExplicit : Option Bool
  refreshMinutes : Option Nat
  closeTempTab : Option Bool
deriving DecidableEq, Repr

/-- The service worker's `getPrefs`: read the stored prefs (absent key or a
null value yields the defaults), merge over `DEFAULT_PREFS`, then force
`autoRefresh` off unless `autoRefreshExplicit` is set. -/
def getPrefs (stored : Option StoredPrefs) : Prefs :=
  let s := stored.getD ⟨none, none, none, none⟩
  let prefs : Prefs :=
    { autoRefresh := s.autoRefresh.getD DEFAULT_PREFS.autoRefresh
      autoRefreshExplicit := s.autoRefreshExplicit.getD DEFAULT_PREFS.autoRefreshExplicit
      refreshMinutes := s.refreshMinutes.getD DEFAULT_PREFS.refreshMinutes
      closeTempTab := s.closeTempTab.getD DEFAULT_PREFS.closeTempTab }
  if !prefs.autoRefreshExplicit then { prefs with autoRefresh := false } else prefs

/-- The popup's `getPrefs` (src/ui/app.js), textually the same logic as the
service worker's. -/
def getPrefsUi (stored : Option StoredPrefs) : Prefs :=
  let s := stored.getD ⟨none, none, none, none⟩
  let prefs : Prefs :=
    { autoRefresh := s.autoRefresh.getD DEFAULT_PREFS.autoRefresh
      autoRefreshExplicit := s.autoRefreshExplicit.getD DEFAULT_PREFS.autoRefreshExplicit
      refreshMinutes := s.refreshMinutes.getD DEFAULT_PREFS.refreshMinutes
      closeTempTab := s.closeTempTab.getD DEFAULT_PREFS.closeTempTab }
  if !prefs.autoRefreshExplicit then { prefs with autoRefresh := false } else prefs

/-! ## Structured extraction results as the background code consumes them

The orchestrator and the two retry drivers only inspect the `ok` flag and the
`error` string of the payload returned from the injected extractor; the other
payload fields (balance, subscriptions, totals, ...) are opaque to them and
omitted here.  `Option ExtractResult` stands for the JS value
`injected?.[0]?.result`, with `none` for `undefined`. -/

structure ExtractResult where
  ok : Bool
  error : Option String
deriving DecidableEq, Repr

/-- Truthiness of `result?.ok`. -/
def isOkRes : Option ExtractResult → Bool
  | some r => r.ok
  | none => false

/-- `String(result?.error || "")`: the error string of a result, or `""` when
the result or its error field is absent. -/
def errStr : Option ExtractResult → String
  | some r => r.error.getD ""
  | none => ""

/-! ## `executeExtractWithRetry` (transient script-injection retry) -/

/-- The retryability test on a thrown message
(`msg.includes("Frame with ID 0 was removed") || ...`). -/
def transientMsg (msg : String) : Bool :=
  strIncludes msg "Frame with ID 0 was removed" ||
  strIncludes msg "No frame with id" ||
  strIncludes msg "The tab was closed" ||
  strIncludes msg "Cannot access contents of url"

/-- One iteration of `executeExtractWithRetry`'s `for` loop, indexed by the
attempt number.  `attempts i` is the outcome of attempt `i`'s body
(`chrome.tabs.get` + `chrome.scripting.executeScript`): `.ok r` for a
successful injection returning the structured value `r`, `.error msg` for any
throw (including the explicit `throw new Error("tab_not_found")`).

`executeExtractGo` runs the loop from attempt `attempt` with
`fuel = maxAttempts + 1 - attempt` remaining iterations, so the JS loop bound
`attempt > maxAttempts` is `fuel = 0` and the break condition
`attempt === maxAttempts` is `fuel = 1`.  It returns the JS outcome (the
returned value or the re-raised last error), the number of the attempt on
which the loop stopped, and the list of `sleep` durations performed
(`220 * attempt` before each retry). -/
def executeExtractGo (attempts : Nat → Except String (Option ExtractResult)) :
    Nat → Nat → Except String (Option ExtractResult) × Nat × List Nat
  | 0, attempt => (.error "extract_retry_failed", attempt - 1, [])
  | fuel + 1, attempt =>
    match attempts attempt with
    | .ok r => (.ok r, attempt, [])
    | .error e =>
      if transientMsg e && fuel != 0 then
        let rest := executeExtractGo attempts fuel (attempt + 1)
        (rest.1, rest.2.1, 220 * attempt :: rest.2.2)
      else (.error e, attempt, [])

/-- `executeExtractWithRetry(tabId, maxAttempts = 4)`; the only call site uses
the default cap of 4. -/
def executeExtractWithRetry (attempts : Nat → Except String (Option ExtractResult))
    (maxAttempts : Nat := 4) : Except String (Option ExtractResult) × Nat × List Nat :=
  executeExtractGo attempts maxAttempts 1

/-! ## `extractDashboardWithResultRetry` (result-level retry) -/

/-- The result-level retryability test:
`detail.includes("main_not_found") || detail.includes("dashboard_data_not_ready")`
on `String(result?.error || "").toLowerCase()`. -/
def resultRetryable (result : Option ExtractResult) : Bool :=
  strIncludes (lowerStr (errStr result)) "main_not_found" ||
  strIncludes (lowerStr (errStr result)) "dashboard_data_not_ready"

/-- The `for` loop of `extractDashboardWithResultRetry`, with the same
`fuel`/`attempt` convention as `executeExtractGo`.  `results i` is the outcome
of the inner `executeExtractWithRetry` call on attempt `i`; a thrown inner
error (`.error`) propagates out unchanged.  Returns the outcome, the stopping
attempt number, and the list of `sleep` durations (`300 * attempt`). -/
def extractResultGo (results : Nat → Except String (Option ExtractResult)) :
    Nat → Nat → Except String (Option ExtractResult) × Nat × List Nat
  | 0, attempt => (.ok none, attempt - 1, [])
  | fuel + 1, attempt =>
    match results attempt with
    | .error e => (.error e, attempt, [])
    | .ok result =>
      if isOkRes result then (.ok result, attempt, [])
      else if !resultRetryable result || fuel == 0 then (.ok result, attempt, [])
      else
        let rest := extractResultGo results fuel (attempt + 1)
        (rest.1, rest.2.1, 300 * attempt :: rest.2.2)

/-- `extractDashboardWithResultRetry(tabId, maxAttempts = 3)`; the only call
site uses the default cap of 3. -/
def extractDashboardWithResultRetry (results : Nat → Except String (Option ExtractResult))
    (maxAttempts : Nat := 3) : Except String (Option ExtractResult) × Nat × List Nat :=
  extractResultGo results maxAttempts 1

/-! ## The DOM extractor `extractRightCodesDashboard` (runs in page context)

The rendered page is modelled statically: the `waitFor` polls resolve to an
element exactly when the page model contains it.  Timestamps (`fetchedAt`),
`location.href` and `document.title` are not modelled.  JS `Number(...)`
coercions are kept as the string argument handed to `Number`, since no
background logic inspects the numeric value. -/

/-- The second cell (`row.children[1]`) of a two-column card row: its text
content and the `title` attributes of its `span[title]` descendants. -/
structure ValueEl where
  text : String
  spanTitles : List String
deriving DecidableEq, Repr

/-- One `div.flex.items-center.justify-between` row of a subscription card:
the text of `row.children[0]` and the optional value element. -/
structure RowEl where
  label : String
  valueEl : Option ValueEl
deriving DecidableEq, Repr

/-- A value in the card's `byLabel` map: a normalized string, or the endpoint
title list for the special-cased label `可用端点`. -/
inductive LabelVal
  | text (s : String)
  | endpoints (titles : List String)
deriving DecidableEq, Repr

/-- One subscription card of the subscriptions grid. -/
structure Card where
  namePurple : Option String
  nameSemibold : Option String
  rows : List RowEl
  usedPercentText : Option String
  progressAria : Option String
deriving DecidableEq, Repr

/-- One card of the totals grid: the label element's text and the value
element's text, each possibly absent. -/
structure TotalCard where
  label : Option String
  value : Option String
deriving DecidableEq, Repr

/-- The static page model: `location.pathname`, the body text, the text of
`<main>` when present, whether `#root` is present, and the two grids (with
their card children) when present. -/
structure Page where
  pathname : String
  bodyText : String
  mainEl : Option String
  rootPresent : Bool
  subGrid : Option (List Card)
  totalsGrid : Option (List TotalCard)
deriving DecidableEq, Repr

/-- The subscription's `quota` field when it is not `null`: the parsed form
`{remaining, total, currency: "$", raw}` (numeric fields kept as the captured
digit strings) or the raw-only form `{raw}`. -/
inductive Quota
  | parsed (remaining total raw : String)
  | rawOnly (raw : String)
deriving DecidableEq, Repr

/-- One record pushed onto `subscriptions`.  `remainingDaysDigits` is the
string handed to `Number` for `remainingDays` (`null` when the row is absent
or empty), and `usedPercentSrc` the string handed to `Number` for
`usedPercent`. -/
structure Subscription where
  name : Option String
  remainingDaysRaw : Option String
  remainingDaysDigits : Option String
  acquiredAt : Option String
  expiresAt : Option String
  resetStatus : Option String
  endpoints : List String
  quota : Option Quota
  usedPercentText : Option String
  usedPercentSrc : Option String
deriving DecidableEq, Repr

/-- The entry a row contributes to the card's `byLabel` map: skipped when the
normalized label is empty or the value element is absent; the label
`可用端点` maps to the endpoint title list, any other label to the normalized
value text. -/
def rowEntry (r : RowEl) : Option (String × LabelVal) :=
  let label := normText r.label
  if label = "" then none
  else
    match r.valueEl with
    | none => none
    | some v =>
      if label = "可用端点" then some (label, .endpoints (v.spanTitles.map normText))
      else some (label, .text (normText v.text))

/-- `byLabel.get(label)`.  `Map.set` overwrites, so the lookup sees the last
row that contributed the label. -/
def byLabelGet (rows : List RowEl) (label : String) : Option LabelVal :=
  ((rows.filterMap rowEntry).reverse.find? (fun kv => kv.1 == label)).map (fun kv => kv.2)

/-- `byLabel.get(label) || null` for the plain-text labels, with the JS
falsiness of `""`. -/
def strFieldOrNull (rows : List RowEl) (label : String) : Option String :=
  match byLabelGet rows label with
  | some (.text s) => if s = "" then none else some s
  | _ => none

/-- The body of the subscriptions `for` loop for one card; `none` when the
card is skipped by `if (!rows?.length) continue`. -/
def parseCard (c : Card) : Option Subscription :=
  let name0 := normText (c.namePurple.getD "")
  let name := if name0 = "" then normText (c.nameSemibold.getD "") else name0
  if c.rows = [] then none
  else
    let usedPercentText := normText (c.usedPercentText.getD "")
    let usedPercentSrc : Option String :=
      match c.progressAria with
      | some a => some a
      | none =>
        if usedPercentText = "" then none
        else some (String.mk (removeFirst '%' usedPercentText.data))
    let remainingDaysRaw := strFieldOrNull c.rows "剩余天数"
    let remainingDaysDigits : Option String :=
      match remainingDaysRaw with
      | some s => some (String.mk ((normText s).data.filter (fun ch => ch.isDigit || ch = '.')))
      | none => none
    let quota : Option Quota :=
      match byLabelGet c.rows "剩余额度" with
      | some (.text v) =>
        (match quotaMatch v with
         | some (a, b) => some (.parsed a b v)
         | none => some (.rawOnly v))
      | _ => none
    some
      { name := if name = "" then none else some name
        remainingDaysRaw := remainingDaysRaw
        remainingDaysDigits := remainingDaysDigits
        acquiredAt := strFieldOrNull c.rows "获得时间"
        expiresAt := strFieldOrNull c.rows "到期时间"
        resetStatus := strFieldOrNull c.rows "今日重置"
        endpoints := (match byLabelGet c.rows "可用端点" with
                      | some (.endpoints l) => l
                      | _ => [])
        quota := quota
        usedPercentText := if usedPercentText = "" then none else some usedPercentText
        usedPercentSrc := usedPercentSrc }

/-- JS object insertion `totals[label] = value`: overwrite an existing key,
else append preserving insertion order. -/
def totalsInsert (m : List (String × Option String)) (k : String) (v : Option String) :
    List (String × Option String) :=
  if m.any (fun kv => kv.1 == k) then m.map (fun kv => if kv.1 == k then (k, v) else kv)
  else m ++ [(k, v)]

/-- The totals `for` loop: skip cards with an empty normalized label, store
`normalize(value) || null`. -/
def buildTotals (cards : List TotalCard) : List (String × Option String) :=
  cards.foldl
    (fun m card =>
      let label := normText (card.label.getD "")
      if label = "" then m
      else
        let value := normText (card.value.getD "")
        totalsInsert m label (if value = "" then none else some value))
    []

/-- The three rate-limit phrases checked on the lowercased body text. -/
def hasRateLimitPhrase (s : String) : Bool :=
  strIncludes s "too many requests" ||
  strIncludes s "查询请求过于频繁" ||
  strIncludes s "每分钟最多30次"

/-- The successful extraction payload (timestamps/url/title omitted;
`balanceDigits` is the captured group handed to `Number` for
`balance.amount`). -/
structure Snapshot where
  balanceRaw : Option String
  balanceDigits : Option String
  subscriptions : List Subscription
  totals : List (String × Option String)
deriving DecidableEq, Repr

/-- The extractor's return value: `{ok:false, error}` or the success
payload. -/
inductive ExtractOutcome
  | failure (error : String)
  | success (snap : Snapshot)
deriving DecidableEq, Repr

/-- `extractRightCodesDashboard` on the static page model.  The surrounding
`try`/`catch` (which converts an unexpected exception into a failure result)
has no effect on the model since no modelled step throws. -/
def extractRightCodesDashboard (p : Page) : ExtractOutcome :=
  if jsStartsWith p.pathname "/login" then .failure "auth_required"
  else
    let bodyTextEarly := lowerStr (normText p.bodyText)
    if hasRateLimitPhrase bodyTextEarly then .failure "too_many_requests"
    else
      let mainFound := p.mainEl.isSome || p.rootPresent
      if !mainFound then
        let bodyTextLate := lowerStr (normText p.bodyText)
        if hasRateLimitPhrase bodyTextLate then .failure "too_many_requests"
        else if jsStartsWith p.pathname "/login" ||
                strIncludes bodyTextLate "使用 linux do 登录" ||
                strIncludes bodyTextLate "还没有账号" then .failure "auth_required"
        else .failure "main_not_found"
      else
        let mainText := normText (p.mainEl.getD p.bodyText)
        let balanceDigits := balanceMatch mainText
        let balanceRaw := balanceDigits.map (fun d => "$" ++ d)
        let subscriptions :=
          match p.subGrid with
          | none => []
          | some cards => cards.filterMap parseCard
        let totals :=
          match p.totalsGrid with
          | none => []
          | some cards => buildTotals cards
        if balanceRaw.isNone && subscriptions.isEmpty && totals.isEmpty then
          .failure "dashboard_data_not_ready"
        else
          .success
            { balanceRaw := balanceRaw
              balanceDigits := balanceDigits
              subscriptions := subscriptions
              totals := totals }

/-! ## The refresh orchestrator `refreshDashboardData`

The browser environment consumed during one invocation is passed as a record
of outcomes, one per external call, in source order; `Except.error msg`
models a throw.  The shared module state is `nextAllowedRefreshAt` together
with the two `chrome.storage.local` slots the orchestrator writes.  The
output additionally records the tab operations performed, the successive
values assigned to `nextAllowedRefreshAt`, and how many times a (non-null)
Last-Error record was written.  `installTempTabLightModeRule`,
`clearTempTabLightModeRule` and `chrome.tabs.remove` are wrapped in their own
`try { } catch { }` in the source and touch none of the modelled state, so
their outcomes are not part of the environment. -/

def MIN_REFRESH_GAP_MS : Nat := 2500

def REMOTE_RATE_LIMIT_COOLDOWN_MS : Nat := 65000

inductive TabOp
  | query
  | create
  | waitUrl
  | inject
  | remove
deriving DecidableEq, Repr

/-- The `detail` value of an error record: a string, or the raw extraction
result object when `result?.error || result` falls through to the result. -/
inductive ErrDetail
  | text (s : String)
  | resultVal (r : Option ExtractResult)
deriving DecidableEq, Repr

/-- A Last-Error record (`at` timestamp omitted). -/
structure ErrorRecord where
  reason : String
  code : String
  detail : Option ErrDetail
deriving DecidableEq, Repr

/-- The value `refreshDashboardData` resolves with:
`{ok:true, data}` or `{ok:false, error}`. -/
inductive RefreshResult
  | success (data : Option ExtractResult)
  | failure (error : ErrorRecord)
deriving DecidableEq, Repr

deriving instance DecidableEq for Except

/-- Module state: the rate-limit floor and the two storage slots. -/
structure OrchState where
  nextAllowedRefreshAt : Nat
  data : Option ExtractResult
  lastError : Option ErrorRecord
deriving DecidableEq, Repr

/-- Outcomes of the external calls made during one invocation.  `now` is
`Date.now()` at entry and `now2` is `Date.now()` at the remote-cooldown
extension; tab ids are numbers (`none` for a created tab without an id). -/
structure RefreshEnv where
  reason : String
  now : Nat
  hasPerm : Except String Bool
  prefs : Except String Prefs
  existingTab : Except String (Option Nat)
  createdTab : Except String (Option Nat)
  waitUrl : Except String Unit
  extract : Except String (Option ExtractResult)
  now2 : Nat
deriving Repr

/-- The full effect of one invocation.  `outcome` is `.error e` when the
exception `e` propagates to the caller (the returned promise rejects), and
`.ok r` when the function returns the tagged value `r`.
`errorRecordWrites` counts writes of a non-null record to the Last-Error
storage slot. -/
structure RefreshOut where
  outcome : Except String RefreshResult
  state : OrchState
  tabOps : List TabOp
  naLog : List Nat
  errorRecordWrites : Nat
deriving DecidableEq, Repr

/-- `detail = result?.error || result` in the `extract_failed` branch. -/
def extractFailDetail (result : Option ExtractResult) : ErrDetail :=
  match result with
  | some r =>
    (match r.error with
     | some e => if e = "" then .resultVal result else .text e
     | none => .resultVal result)
  | none => .resultVal none

/-- `String(detail || "").toLowerCase()` for that same `detail` value
(`String` of an object is `"[object Object]"`). -/
def detailLowerText : Option ExtractResult → String
  | some r =>
    (match r.error with
     | some e => if e = "" then "[object object]" else lowerStr e
     | none => "[object object]")
  | none => ""

/-- `detailText.includes("too_many_requests") || detailText.includes("too many requests")`. -/
def tooManyDetail (s : String) : Bool :=
  strIncludes s "too_many_requests" || strIncludes s "too many requests"

/-- The `try { ... }` block body together with the `catch` handler, entered
with a usable tab: best-effort rule install (no modelled effect), the
readiness wait, the settle sleep, and the extraction; a throw from the wait
or the extraction is caught and persisted as `refresh_exception`.  `st1` is
the state after the local-gap assignment. -/
def refreshTryPhase (env : RefreshEnv) (st1 : OrchState) : RefreshOut :=
  match env.waitUrl with
  | .error e =>
    let error : ErrorRecord := ⟨env.reason, "refresh_exception", some (.text e)⟩
    { outcome := .ok (.failure error), state := { st1 with lastError := some error },
      tabOps := [.waitUrl], naLog := [], errorRecordWrites := 1 }
  | .ok _ =>
    match env.extract with
    | .error e =>
      let error : ErrorRecord := ⟨env.reason, "refresh_exception", some (.text e)⟩
      { outcome := .ok (.failure error), state := { st1 with lastError := some error },
        tabOps := [.waitUrl, .inject], naLog := [], errorRecordWrites := 1 }
    | .ok result =>
      if isOkRes result then
        { outcome := .ok (.success result),
          state := { st1 with data := result, lastError := none },
          tabOps := [.waitUrl, .inject], naLog := [], errorRecordWrites := 0 }
      else
        let raised := tooManyDetail (detailLowerText result)
        let na2 := Nat.max st1.nextAllowedRefreshAt (env.now2 + REMOTE_RATE_LIMIT_COOLDOWN_MS)
        let st2 := if raised then { st1 with nextAllowedRefreshAt := na2 } else st1
        let error : ErrorRecord := ⟨env.reason, "extract_failed", some (extractFailDetail result)⟩
        { outcome := .ok (.failure error), state := { st2 with lastError := some error },
          tabOps := [.waitUrl, .inject], naLog := if raised then [na2] else [],
          errorRecordWrites := 1 }

/-- Continuation after tab acquisition: the `!tab?.id` guard (`0` is falsy in
JS), then the `try`/`catch` body and the `finally` cleanup (rule removal,
and closing a created temp tab when `prefs.closeTempTab`; both best-effort
and without effect on the modelled state).  `ops` are the tab operations
already performed and `na1` the value just assigned to the rate floor. -/
def refreshAfterTab (env : RefreshEnv) (st1 : OrchState) (prefs : Prefs)
    (createdTempTab : Bool) (tab : Option Nat) (ops : List TabOp) (na1 : Nat) : RefreshOut :=
  match tab with
  | some tid =>
    if tid = 0 then
      let error : ErrorRecord := ⟨env.reason, "tab_create_failed", none⟩
      { outcome := .ok (.failure error), state := { st1 with lastError := some error },
        tabOps := ops, naLog := [na1], errorRecordWrites := 1 }
    else
      let body := refreshTryPhase env st1
      let cleanupOps := if createdTempTab && prefs.closeTempTab then [TabOp.remove] else []
      { body with tabOps := ops ++ body.tabOps ++ cleanupOps, naLog := na1 :: body.naLog }
  | none =>
    let error : ErrorRecord := ⟨env.reason, "tab_create_failed", none⟩
    { outcome := .ok (.failure error), state := { st1 with lastError := some error },
      tabOps := ops, naLog := [na1], errorRecordWrites := 1 }

/-- `refreshDashboardData({reason})`.  The local rate gate, the local-gap
assignment, then the permission check, preference read, tab query and tab
creation — all four outside the `try`, so a throw from any of them
propagates — followed by the guarded phase. -/
def refreshDashboardData (env : RefreshEnv) (st : OrchState) : RefreshOut :=
  if env.now < st.nextAllowedRefreshAt then
    let error : ErrorRecord :=
      ⟨env.reason, "rate_limited_local",
        some (.text ("cooldown_until_" ++ toString st.nextAllowedRefreshAt))⟩
    { outcome := .ok (.failure error), state := { st with lastError := some error },
      tabOps := [], naLog := [], errorRecordWrites := 1 }
  else
    let na1 := env.now + MIN_REFRESH_GAP_MS
    let st1 := { st with nextAllowedRefreshAt := na1 }
    match env.hasPerm with
    | .error e =>
      { outcome := .error e, state := st1, tabOps := [], naLog := [na1], errorRecordWrites := 0 }
    | .ok hasPerm =>
      if !hasPerm then
        let error : ErrorRecord := ⟨env.reason, "missing_host_permission", none⟩
        { outcome := .ok (.failure error), state := { st1 with lastError := some error },
          tabOps := [], naLog := [na1], errorRecordWrites := 1 }
      else
        match env.prefs with
        | .error e =>
          { outcome := .error e, state := st1, tabOps := [], naLog := [na1],
            errorRecordWrites := 0 }
        | .ok prefs =>
          match env.existingTab with
          | .error e =>
            { outcome := .error e, state := st1, tabOps := [.query], naLog := [na1],
              errorRecordWrites := 0 }
          | .ok existing =>
            match existing with
            | some tid => refreshAfterTab env st1 prefs false (some tid) [.query] na1
            | none =>
              match env.createdTab with
              | .error e =>
                { outcome := .error e, state := st1, tabOps := [.query, .create],
                  naLog := [na1], errorRecordWrites := 0 }
              | .ok t => refreshAfterTab env st1 prefs true t [.query, .create] na1

/-- The failure code of an invocation's outcome, when it returned a tagged
failure. -/
def resultCode (o : RefreshOut) : Option String :=
  match o.outcome with
  | .ok (.failure e) => some e.code
  | _ => none

/-! ## The trigger listeners (in-flight dedup)

The `chrome.runtime.onMessage` listener for `rcdm_refresh` starts a new
`refreshDashboardData` invocation only when `inFlightRefreshPromise` is null
and makes every message await that shared promise; its `finally` handler
clears the marker when the promise settles.  The `chrome.alarms.onAlarm`
listener calls `refreshDashboardData` directly.  Invocations are numbered;
`started` lists the invocations of `refreshDashboardData` in creation order,
and the returned `Option Nat` is the invocation whose settled result the
event's trigger observes (the alarm listener discards it with `void`). -/

inductive SwEvent
  | message
  | alarm
  | settle
deriving DecidableEq, Repr

structure DispatchState where
  inFlight : Option Nat
  nextOpId : Nat
  started : List Nat
deriving DecidableEq, Repr

def handleSwEvent (st : DispatchState) : SwEvent → DispatchState × Option Nat
  | .message =>
    (match st.inFlight with
     | some id => (st, some id)
     | none =>
       (⟨some st.nextOpId, st.nextOpId + 1, st.started ++ [st.nextOpId]⟩, some st.nextOpId))
  | .alarm =>
    (⟨st.inFlight, st.nextOpId + 1, st.started ++ [st.nextOpId]⟩, some st.nextOpId)
  | .settle => (⟨none, st.nextOpId, st.started⟩, none)

/-! ## Claim theorems -/

/-- C9: for every stored preference state whose `autoRefreshExplicit` is
false (explicitly stored false, or absent and hence defaulted to false), the
preferences returned by `getPrefs` have `autoRefresh = false` regardless of
the stored `autoRefresh` value, in both readers (service worker and popup
UI). -/
theorem autoRefresh_forced_off (stored : Option StoredPrefs)
    (h : ((stored.getD ⟨none, none, none, none⟩).autoRefreshExplicit.getD false) = false) :
    (getPrefs stored).autoRefresh = false ∧ (getPrefsUi stored).autoRefresh = false := by
  cases stored with
  | none => exact ⟨rfl, rfl⟩
  | some s =>
    obtain ⟨a, e, m, c⟩ := s
    cases e with
    | none => simp [getPrefs, getPrefsUi, DEFAULT_PREFS]
    | some b =>
      simp only [Option.getD_some] at h
      subst h
      simp [getPrefs, getPrefsUi]

theorem autoRefresh_forced_off_witness :
    (((some ⟨some true, some false, none, none⟩ : Option StoredPrefs).getD
        ⟨none, none, none, none⟩).autoRefreshExplicit.getD false) = false ∧
    ((getPrefs (some ⟨some true, some false, none, none⟩)).autoRefresh = false ∧
     (getPrefsUi (some ⟨some true, some false, none, none⟩)).autoRefresh = false) :=
  ⟨rfl, autoRefresh_forced_off (some ⟨some true, some false, none, none⟩) rfl⟩

/-- C2 is violated by the code: an alarm firing while a refresh is in flight
does not observe the outstanding operation's result — the alarm listener
calls `refreshDashboardData` directly, starting a second invocation.  With
invocation 0 in flight, the alarm trigger starts and observes invocation 1. -/
theorem alarm_bypasses_dedup_counterexample :
    (handleSwEvent ⟨some 0, 1, [0]⟩ .alarm).2 ≠ some 0 ∧
    (handleSwEvent ⟨some 0, 1, [0]⟩ .alarm).1.started = [0, 1] := by decide

/-- C2 (amended): only message-triggered (`rcdm_refresh`) refreshes are
deduplicated through the shared in-flight handle — a message arriving while
an invocation is in flight observes that same invocation and starts nothing
new, a message arriving while none is in flight starts exactly one, and the
in-flight marker is cleared only when the outstanding promise settles.
Alarm-triggered refreshes bypass the handle and always start a fresh
`refreshDashboardData` invocation of their own. -/
theorem refresh_dedup_message_only (st : DispatchState) (e : SwEvent) (id : Nat) :
    (st.inFlight = some id → handleSwEvent st .message = (st, some id)) ∧
    (st.inFlight = none →
      handleSwEvent st .message =
        (⟨some st.nextOpId, st.nextOpId + 1, st.started ++ [st.nextOpId]⟩, some st.nextOpId)) ∧
    handleSwEvent st .alarm =
      (⟨st.inFlight, st.nextOpId + 1, st.started ++ [st.nextOpId]⟩, some st.nextOpId) ∧
    (st.inFlight = some id → e ≠ .settle → (handleSwEvent st e).1.inFlight = some id) ∧
    (handleSwEvent st .settle).1.inFlight = none := by
  refine ⟨fun h => by simp [handleSwEvent, h], fun h => by simp [handleSwEvent, h],
    by simp [handleSwEvent], fun h hne => ?_, by simp [handleSwEvent]⟩
  cases e with
  | message => simp [handleSwEvent, h]
  | alarm => simpa [handleSwEvent] using h
  | settle => exact absurd rfl hne

theorem refresh_dedup_message_only_witness :
    handleSwEvent ⟨some 7, 9, [7]⟩ .message = (⟨some 7, 9, [7]⟩, some 7) ∧
    (handleSwEvent ⟨some 7, 9, [7]⟩ .alarm).1.inFlight = some 7 :=
  ⟨(refresh_dedup_message_only ⟨some 7, 9, [7]⟩ .alarm 7).1 rfl,
   (refresh_dedup_message_only ⟨some 7, 9, [7]⟩ .alarm 7).2.2.2.1 rfl (by decide)⟩

/-- C10: a subscription card with at least one row but no `剩余额度` row is
emitted with `quota = null` — a third shape besides the two parsed forms;
the `{raw}`-only shape arises exactly when the row is present and its text
does not match the `$X / $Y` pattern. -/
theorem quota_third_shape (c : Card) (h : c.rows ≠ []) :
    (parseCard c).isSome = true ∧
    ∀ s, parseCard c = some s →
      (byLabelGet c.rows "剩余额度" = none → s.quota = none) ∧
      (∀ l, byLabelGet c.rows "剩余额度" = some (.endpoints l) → s.quota = none) ∧
      (∀ v, byLabelGet c.rows "剩余额度" = some (.text v) →
        s.quota = some (match quotaMatch v with
          | some (a, b) => Quota.parsed a b v
          | none => Quota.rawOnly v)) ∧
      (∀ raw, s.quota = some (.rawOnly raw) →
        byLabelGet c.rows "剩余额度" = some (.text raw) ∧ quotaMatch raw = none) := by
  simp only [parseCard, if_neg h]
  refine ⟨rfl, fun s hs => ?_⟩
  injection hs with hs
  subst hs
  refine ⟨fun hq => by simp [hq], fun l hq => by simp [hq],
    fun v hq => by rcases hm : quotaMatch v with _ | ⟨a, b⟩ <;> simp [hq, hm],
    fun raw hquota => ?_⟩
  rcases hq : byLabelGet c.rows "剩余额度" with _ | lv
  · simp [hq] at hquota
  · cases lv with
    | text v =>
      simp only [hq] at hquota
      rcases hm : quotaMatch v with _ | ab
      · simp only [hm] at hquota
        injection hquota with hquota
        injection hquota with hquota
        subst hquota
        exact ⟨rfl, hm⟩
      · obtain ⟨a, b⟩ := ab
        simp [hm] at hquota
    | endpoints l => simp [hq] at hquota

theorem quota_third_shape_witness :
    ((⟨none, none, [⟨"到期时间", some ⟨"2025-01-01", []⟩⟩], none, none⟩ : Card).rows ≠ []) ∧
    ∃ s, parseCard ⟨none, none, [⟨"到期时间", some ⟨"2025-01-01", []⟩⟩], none, none⟩ = some s ∧
      s.quota = none := by
  have h := quota_third_shape ⟨none, none, [⟨"到期时间", some ⟨"2025-01-01", []⟩⟩], none, none⟩
    (by decide)
  refine ⟨by decide, ?_⟩
  rcases hs : parseCard ⟨none, none, [⟨"到期时间", some ⟨"2025-01-01", []⟩⟩], none, none⟩
    with _ | s
  · rw [hs] at h
    exact absurd h.1 (by decide)
  · exact ⟨s, rfl, ((h.2 s hs).1 (by decide))⟩

/-- C8 is violated by the code: a page whose main content matches the
balance pattern with `$12.50`, with no subscription grid and no totals grid,
makes the extractor return a success carrying that balance — the
`dashboard_data_not_ready` guard fires only when the balance is also absent
(`!balance?.raw`). -/
theorem balance_only_page_counterexample :
    extractRightCodesDashboard ⟨"/dashboard", "", some "余额: $12.50", false, none, none⟩ =
      .success ⟨some "$12.50", some "12.50", [], []⟩ ∧
    extractRightCodesDashboard ⟨"/dashboard", "", some "余额: $12.50", false, none, none⟩ ≠
      .failure "dashboard_data_not_ready" := by decide

/-- C8 (amended): on a rendered non-login page without rate-limit phrases
whose `<main>` is present but which has no subscription grid and no totals
grid, the extractor returns `dashboard_data_not_ready` exactly when the main
text does not match the balance pattern; when the balance pattern matches it
returns a success carrying the matched balance and empty
subscriptions/totals. -/
theorem balance_only_page_extraction (p : Page) (m : String)
    (hLogin : jsStartsWith p.pathname "/login" = false)
    (hRate : hasRateLimitPhrase (lowerStr (normText p.bodyText)) = false)
    (hMain : p.mainEl = some m)
    (hSub : p.subGrid = none)
    (hTot : p.totalsGrid = none) :
    extractRightCodesDashboard p =
      match balanceMatch (normText m) with
      | some d => .success ⟨some ("$" ++ d), some d, [], []⟩
      | none => .failure "dashboard_data_not_ready" := by
  simp only [extractRightCodesDashboard, hLogin, hRate, hMain, hSub, hTot]
  rcases hb : balanceMatch (normText m) with _ | d <;>
    simp [hb, Option.isNone, Option.getD]

theorem balance_only_page_extraction_witness :
    extractRightCodesDashboard ⟨"/dashboard", "", some "hello", false, none, none⟩ =
      .failure "dashboard_data_not_ready" := by
  have h := balance_only_page_extraction ⟨"/dashboard", "", some "hello", false, none, none⟩
    "hello" (by decide) (by decide) rfl rfl rfl
  rw [h]
  decide

/-! ### Helper lemmas about the orchestrator's branches -/

lemma refreshTryPhase_next_ge (env : RefreshEnv) (st1 : OrchState) :
    st1.nextAllowedRefreshAt ≤ (refreshTryPhase env st1).state.nextAllowedRefreshAt := by
  unfold refreshTryPhase
  rcases env.waitUrl with e | u
  · simp
  · rcases env.extract with e | r
    · simp
    · by_cases hok : isOkRes r
      · simp [hok]
      · by_cases hr : tooManyDetail (detailLowerText r)
        · simp [hok, hr, Nat.le_max_left]
        · simp [hok, hr]

lemma refreshTryPhase_naLog (env : RefreshEnv) (st1 : OrchState) :
    (refreshTryPhase env st1).naLog = [] ∨
    (refreshTryPhase env st1).naLog =
      [Nat.max st1.nextAllowedRefreshAt (env.now2 + REMOTE_RATE_LIMIT_COOLDOWN_MS)] := by
  unfold refreshTryPhase
  rcases env.waitUrl with e | u
  · simp
  · rcases env.extract with e | r
    · simp
    · by_cases hok : isOkRes r
      · simp [hok]
      · by_cases hr : tooManyDetail (detailLowerText r)
        · simp [hok, hr]
        · simp [hok, hr]

lemma refreshAfterTab_mono (env : RefreshEnv) (st1 : OrchState) (prefs : Prefs)
    (created : Bool) (tab : Option Nat) (ops : List TabOp) :
    List.Chain' (· ≤ ·)
      ((refreshAfterTab env st1 prefs created tab ops st1.nextAllowedRefreshAt).naLog) ∧
    st1.nextAllowedRefreshAt ≤
      (refreshAfterTab env st1 prefs created tab ops st1.nextAllowedRefreshAt).state.nextAllowedRefreshAt ∧
    (refreshAfterTab env st1 prefs created tab ops st1.nextAllowedRefreshAt).naLog.head? =
      some st1.nextAllowedRefreshAt := by
  rcases tab with _ | tid
  · simp [refreshAfterTab]
  · by_cases h0 : tid = 0
    · simp [refreshAfterTab, h0]
    · have hst := refreshTryPhase_next_ge env st1
      rcases refreshTryPhase_naLog env st1 with hl | hl <;>
        simp [refreshAfterTab, h0, hl, hst, Nat.le_max_left]

lemma refresh_rate_limited (env : RefreshEnv) (st : OrchState)
    (h : env.now < st.nextAllowedRefreshAt) :
    refreshDashboardData env st =
      { outcome := .ok (.failure ⟨env.reason, "rate_limited_local",
          some (.text ("cooldown_until_" ++ toString st.nextAllowedRefreshAt))⟩),
        state := { st with lastError := some ⟨env.reason, "rate_limited_local",
          some (.text ("cooldown_until_" ++ toString st.nextAllowedRefreshAt))⟩ },
        tabOps := [], naLog := [], errorRecordWrites := 1 } := by
  simp [refreshDashboardData, h]

lemma refresh_post_guard (env : RefreshEnv) (st : OrchState)
    (h : ¬ env.now < st.nextAllowedRefreshAt) :
    (refreshDashboardData env st).naLog.head? = some (env.now + MIN_REFRESH_GAP_MS) ∧
    env.now + MIN_REFRESH_GAP_MS ≤ (refreshDashboardData env st).state.nextAllowedRefreshAt ∧
    List.Chain' (· ≤ ·) ((refreshDashboardData env st).naLog) := by
  simp only [refreshDashboardData, if_neg h]
  rcases env.hasPerm with e | b
  · simp
  · cases b
    · simp
    · rcases env.prefs with e | p
      · simp
      · rcases env.existingTab with e | existing
        · simp
        · rcases existing with _ | tid
          · rcases env.createdTab with e | t
            · simp
            · have hm := refreshAfterTab_mono env
                { st with nextAllowedRefreshAt := env.now + MIN_REFRESH_GAP_MS } p true t
                [.query, .create]
              exact ⟨hm.2.2, hm.2.1, hm.1⟩
          · have hm := refreshAfterTab_mono env
              { st with nextAllowedRefreshAt := env.now + MIN_REFRESH_GAP_MS } p false (some tid)
              [.query]
            exact ⟨hm.2.2, hm.2.1, hm.1⟩

/-- C3: the rate-limit floor `nextAllowedRefreshAt` is never lowered — in
every refresh invocation the successive values assigned to it (the local-gap
assignment and the remote-cooldown extension) form a non-decreasing chain
starting from its previous value, and the final value is at least the
initial one. -/
theorem nextAllowed_monotone (env : RefreshEnv) (st : OrchState) :
    List.Chain' (· ≤ ·) (st.nextAllowedRefreshAt :: (refreshDashboardData env st).naLog) ∧
    st.nextAllowedRefreshAt ≤ (refreshDashboardData env st).state.nextAllowedRefreshAt := by
  by_cases hlt : env.now < st.nextAllowedRefreshAt
  · rw [refresh_rate_limited env st hlt]
    simp
  · obtain ⟨hhead, hnext, hchain⟩ := refresh_post_guard env st hlt
    have hna : st.nextAllowedRefreshAt ≤ env.now + MIN_REFRESH_GAP_MS := by omega
    constructor
    · rw [List.chain'_cons']
      exact ⟨fun b hb => by rw [hhead] at hb; cases hb; exact hna, hchain⟩
    · omega

/-- C4: a refresh invoked while `now < nextAllowedRefreshAt` fails
immediately with `rate_limited_local`, performs no tab operations, writes
exactly the one error record (leaving the cached data and the floor
untouched); otherwise the invocation first sets the floor to
`now + MIN_REFRESH_GAP_MS` (its first floor assignment) and keeps it at
least there, so a second call within the gap fails fast with
`rate_limited_local` and performs no tab operations. -/
theorem local_rate_gate (env env2 : RefreshEnv) (st : OrchState) :
    (env.now < st.nextAllowedRefreshAt →
      (refreshDashboardData env st).outcome =
        .ok (.failure ⟨env.reason, "rate_limited_local",
          some (.text ("cooldown_until_" ++ toString st.nextAllowedRefreshAt))⟩) ∧
      (refreshDashboardData env st).tabOps = [] ∧
      (refreshDashboardData env st).naLog = [] ∧
      (refreshDashboardData env st).state.nextAllowedRefreshAt = st.nextAllowedRefreshAt ∧
      (refreshDashboardData env st).state.data = st.data ∧
      (refreshDashboardData env st).errorRecordWrites = 1) ∧
    (st.nextAllowedRefreshAt ≤ env.now →
      (refreshDashboardData env st).naLog.head? = some (env.now + MIN_REFRESH_GAP_MS) ∧
      env.now + MIN_REFRESH_GAP_MS ≤ (refreshDashboardData env st).state.nextAllowedRefreshAt ∧
      (env2.now < env.now + MIN_REFRESH_GAP_MS →
        resultCode (refreshDashboardData env2 (refreshDashboardData env st).state) =
          some "rate_limited_local" ∧
        (refreshDashboardData env2 (refreshDashboardData env st).state).tabOps = [])) := by
  constructor
  · intro h
    rw [refresh_rate_limited env st h]
    exact ⟨rfl, rfl, rfl, rfl, rfl, rfl⟩
  · intro h
    have hne : ¬ env.now < st.nextAllowedRefreshAt := by omega
    obtain ⟨hhead, hnext, _⟩ := refresh_post_guard env st hne
    refine ⟨hhead, hnext, fun h2 => ?_⟩
    have hlt2 : env2.now < (refreshDashboardData env st).state.nextAllowedRefreshAt := by omega
    rw [refresh_rate_limited env2 _ hlt2]
    exact ⟨rfl, rfl⟩

theorem local_rate_gate_witness :
    (refreshDashboardData
        ⟨"manual", 10, .ok true, .ok DEFAULT_PREFS, .ok none, .ok (some 5), .ok (),
          .ok (some ⟨true, none⟩), 10⟩ ⟨0, none, none⟩).naLog.head? = some 2510 ∧
    resultCode (refreshDashboardData
        ⟨"alarm", 100, .ok true, .ok DEFAULT_PREFS, .ok none, .ok (some 5), .ok (),
          .ok (some ⟨true, none⟩), 100⟩
        (refreshDashboardData
          ⟨"manual", 10, .ok true, .ok DEFAULT_PREFS, .ok none, .ok (some 5), .ok (),
            .ok (some ⟨true, none⟩), 10⟩ ⟨0, none, none⟩).state) = some "rate_limited_local" := by
  have h := (local_rate_gate
    ⟨"manual", 10, .ok true, .ok DEFAULT_PREFS, .ok none, .ok (some 5), .ok (),
      .ok (some ⟨true, none⟩), 10⟩
    ⟨"alarm", 100, .ok true, .ok DEFAULT_PREFS, .ok none, .ok (some 5), .ok (),
      .ok (some ⟨true, none⟩), 100⟩
    ⟨0, none, none⟩).2 (by decide)
  exact ⟨h.1, (h.2.2 (by decide)).1⟩

/-- C5: whenever the extraction result of a refresh that reached the
extraction step is a failure whose detail indicates a remote
too-many-requests condition, the invocation raises the floor to at least
`now2 + REMOTE_RATE_LIMIT_COOLDOWN_MS` (where `now2` is the clock read at
that point), reports `extract_failed`, and any subsequent refresh before
that time fails with `rate_limited_local`. -/
theorem remote_cooldown (env env2 : RefreshEnv) (st : OrchState) (p : Prefs) (tid : Nat)
    (r : Option ExtractResult)
    (hgate : st.nextAllowedRefreshAt ≤ env.now)
    (hperm : env.hasPerm = .ok true)
    (hprefs : env.prefs = .ok p)
    (htab : env.existingTab = .ok (some tid) ∨
      (env.existingTab = .ok none ∧ env.createdTab = .ok (some tid)))
    (htid : tid ≠ 0)
    (hwait : env.waitUrl = .ok ())
    (hx : env.extract = .ok r)
    (hok : isOkRes r = false)
    (htm : tooManyDetail (detailLowerText r) = true) :
    env.now2 + REMOTE_RATE_LIMIT_COOLDOWN_MS ≤
      (refreshDashboardData env st).state.nextAllowedRefreshAt ∧
    resultCode (refreshDashboardData env st) = some "extract_failed" ∧
    (env2.now < env.now2 + REMOTE_RATE_LIMIT_COOLDOWN_MS →
      resultCode (refreshDashboardData env2 (refreshDashboardData env st).state) =
        some "rate_limited_local") := by
  have hne : ¬ env.now < st.nextAllowedRefreshAt := by omega
  have key : env.now2 + REMOTE_RATE_LIMIT_COOLDOWN_MS ≤
      (refreshDashboardData env st).state.nextAllowedRefreshAt ∧
      resultCode (refreshDashboardData env st) = some "extract_failed" := by
    rcases htab with ht | ⟨ht, hc⟩
    · simp only [refreshDashboardData, if_neg hne, hperm, hprefs, ht]
      simp only [refreshAfterTab, if_neg htid]
      simp only [refreshTryPhase, hwait, hx]
      simp [hok, htm, resultCode, Nat.le_max_right]
    · simp only [refreshDashboardData, if_neg hne, hperm, hprefs, ht, hc]
      simp only [refreshAfterTab, if_neg htid]
      simp only [refreshTryPhase, hwait, hx]
      simp [hok, htm, resultCode, Nat.le_max_right]
  refine ⟨key.1, key.2, fun h2 => ?_⟩
  have hlt2 : env2.now < (refreshDashboardData env st).state.nextAllowedRefreshAt := by
    omega
  rw [refresh_rate_limited env2 _ hlt2]
  rfl

theorem remote_cooldown_witness :
    66200 ≤ (refreshDashboardData
        ⟨"manual", 1000, .ok true, .ok DEFAULT_PREFS, .ok (some 5), .ok none, .ok (),
          .ok (some ⟨false, some "too_many_requests"⟩), 1200⟩
        ⟨0, none, none⟩).state.nextAllowedRefreshAt ∧
    resultCode (refreshDashboardData
        ⟨"alarm", 50000, .ok true, .ok DEFAULT_PREFS, .ok (some 5), .ok none, .ok (),
          .ok (some ⟨false, some "too_many_requests"⟩), 50000⟩
        (refreshDashboardData
          ⟨"manual", 1000, .ok true, .ok DEFAULT_PREFS, .ok (some 5), .ok none, .ok (),
            .ok (some ⟨false, some "too_many_requests"⟩), 1200⟩
          ⟨0, none, none⟩).state) = some "rate_limited_local" := by
  have h := remote_cooldown
    ⟨"manual", 1000, .ok true, .ok DEFAULT_PREFS, .ok (some 5), .ok none, .ok (),
      .ok (some ⟨false, some "too_many_requests"⟩), 1200⟩
    ⟨"alarm", 50000, .ok true, .ok DEFAULT_PREFS, .ok (some 5), .ok none, .ok (),
      .ok (some ⟨false, some "too_many_requests"⟩), 50000⟩
    ⟨0, none, none⟩ DEFAULT_PREFS 5 (some ⟨false, some "too_many_requests"⟩)
    (by decide) rfl rfl (Or.inl rfl) (by decide) rfl rfl (by decide) (by decide)
  exact ⟨h.1, h.2.2 (by decide)⟩

lemma refreshTryPhase_acct (env : RefreshEnv) (st1 : OrchState) :
    (∃ r0, (refreshTryPhase env st1).outcome = .ok r0) ∧
    (∀ e, (refreshTryPhase env st1).outcome = .ok (.failure e) →
      (refreshTryPhase env st1).errorRecordWrites = 1 ∧
      (refreshTryPhase env st1).state.lastError = some e) ∧
    (∀ d, (refreshTryPhase env st1).outcome = .ok (.success d) →
      (refreshTryPhase env st1).errorRecordWrites = 0 ∧
      (refreshTryPhase env st1).state.lastError = none) := by
  unfold refreshTryPhase
  rcases env.waitUrl with e | u
  · exact ⟨⟨_, rfl⟩, fun e0 he => by simp at he; subst he; exact ⟨rfl, rfl⟩,
      fun d hd => by simp at hd⟩
  · rcases env.extract with e | r
    · exact ⟨⟨_, rfl⟩, fun e0 he => by simp at he; subst he; exact ⟨rfl, rfl⟩,
        fun d hd => by simp at hd⟩
    · by_cases hok : isOkRes r
      · refine ⟨⟨.success r, by simp [hok]⟩, fun e0 he => by simp [hok] at he,
          fun d hd => by simp [hok]⟩
      · by_cases hr : tooManyDetail (detailLowerText r)
        · refine ⟨⟨.failure ⟨env.reason, "extract_failed", some (extractFailDetail r)⟩,
            by simp [hok, hr]⟩, fun e0 he => ?_, fun d hd => by simp [hok, hr] at hd⟩
          simp only [hok, hr] at he ⊢
          simp at he
          subst he
          exact ⟨rfl, rfl⟩
        · refine ⟨⟨.failure ⟨env.reason, "extract_failed", some (extractFailDetail r)⟩,
            by simp [hok, hr]⟩, fun e0 he => ?_, fun d hd => by simp [hok, hr] at hd⟩
          simp only [hok, hr] at he ⊢
          simp at he
          subst he
          exact ⟨rfl, rfl⟩

lemma refreshAfterTab_acct (env : RefreshEnv) (st1 : OrchState) (prefs : Prefs)
    (created : Bool) (tab : Option Nat) (ops : List TabOp) (na1 : Nat) :
    (∃ r0, (refreshAfterTab env st1 prefs created tab ops na1).outcome = .ok r0) ∧
    (∀ e, (refreshAfterTab env st1 prefs created tab ops na1).outcome = .ok (.failure e) →
      (refreshAfterTab env st1 prefs created tab ops na1).errorRecordWrites = 1 ∧
      (refreshAfterTab env st1 prefs created tab ops na1).state.lastError = some e) ∧
    (∀ d, (refreshAfterTab env st1 prefs created tab ops na1).outcome = .ok (.success d) →
      (refreshAfterTab env st1 prefs created tab ops na1).errorRecordWrites = 0 ∧
      (refreshAfterTab env st1 prefs created tab ops na1).state.lastError = none) := by
  rcases tab with _ | tid
  · exact ⟨⟨_, rfl⟩, fun e0 he => by simp [refreshAfterTab] at he; subst he; exact ⟨rfl, rfl⟩,
      fun d hd => by simp [refreshAfterTab] at hd⟩
  · by_cases h0 : tid = 0
    · subst h0
      exact ⟨⟨_, rfl⟩,
        fun e0 he => by simp [refreshAfterTab] at he; subst he; exact ⟨rfl, rfl⟩,
        fun d hd => by simp [refreshAfterTab] at hd⟩
    · have hacct := refreshTryPhase_acct env st1
      simp only [refreshAfterTab, if_neg h0]
      exact hacct

/-- C1 is violated by the code: the permission check, preference read, tab
query and tab creation happen before the `try` block, so an exception thrown
there propagates out of `refreshDashboardData` to its caller, and no
Last-Error record is written.  Concretely, a throwing permission check
rejects the invocation with that exception and zero error-record writes. -/
theorem error_boundary_counterexample :
    (refreshDashboardData
        ⟨"manual", 1000, .error "permission_check_threw", .ok DEFAULT_PREFS, .ok none,
          .ok none, .ok (), .ok none, 1000⟩ ⟨0, none, none⟩).outcome =
      .error "permission_check_threw" ∧
    (refreshDashboardData
        ⟨"manual", 1000, .error "permission_check_threw", .ok DEFAULT_PREFS, .ok none,
          .ok none, .ok (), .ok none, 1000⟩ ⟨0, none, none⟩).errorRecordWrites = 0 ∧
    (refreshDashboardData
        ⟨"manual", 1000, .error "permission_check_threw", .ok DEFAULT_PREFS, .ok none,
          .ok none, .ok (), .ok none, 1000⟩ ⟨0, none, none⟩).state.lastError = none := by
  decide

/-- C1 (amended): once the four pre-`try` external calls (permission check,
preference read, tab query, tab creation) return without throwing, no
exception escapes `refreshDashboardData`: every failure path writes exactly
one Last-Error record and returns a tagged failure value, and a success
clears the Last-Error slot with no error-record write.  An exception thrown
by any of those four pre-`try` calls, however, propagates to the caller with
no Last-Error record written. -/
theorem error_boundary (env : RefreshEnv) (st : OrchState) :
    ((∃ b, env.hasPerm = .ok b) → (∃ p, env.prefs = .ok p) →
     (∃ t, env.existingTab = .ok t) → (∃ t2, env.createdTab = .ok t2) →
      (∃ r0, (refreshDashboardData env st).outcome = .ok r0) ∧
      (∀ e, (refreshDashboardData env st).outcome = .ok (.failure e) →
        (refreshDashboardData env st).errorRecordWrites = 1 ∧
        (refreshDashboardData env st).state.lastError = some e) ∧
      (∀ d, (refreshDashboardData env st).outcome = .ok (.success d) →
        (refreshDashboardData env st).errorRecordWrites = 0 ∧
        (refreshDashboardData env st).state.lastError = none)) ∧
    (∀ e, st.nextAllowedRefreshAt ≤ env.now → env.hasPerm = .error e →
      (refreshDashboardData env st).outcome = .error e ∧
      (refreshDashboardData env st).errorRecordWrites = 0) ∧
    (∀ e, st.nextAllowedRefreshAt ≤ env.now → env.hasPerm = .ok true →
      env.prefs = .error e →
      (refreshDashboardData env st).outcome = .error e ∧
      (refreshDashboardData env st).errorRecordWrites = 0) ∧
    (∀ e p, st.nextAllowedRefreshAt ≤ env.now → env.hasPerm = .ok true →
      env.prefs = .ok p → env.existingTab = .error e →
      (refreshDashboardData env st).outcome = .error e ∧
      (refreshDashboardData env st).errorRecordWrites = 0) ∧
    (∀ e p, st.nextAllowedRefreshAt ≤ env.now → env.hasPerm = .ok true →
      env.prefs = .ok p → env.existingTab = .ok none → env.createdTab = .error e →
      (refreshDashboardData env st).outcome = .error e ∧
      (refreshDashboardData env st).errorRecordWrites = 0) := by
  refine ⟨?_, ?_, ?_, ?_, ?_⟩
  · rintro ⟨b, hb⟩ ⟨p, hp⟩ ⟨t, ht⟩ ⟨t2, ht2⟩
    by_cases hlt : env.now < st.nextAllowedRefreshAt
    · rw [refresh_rate_limited env st hlt]
      exact ⟨⟨_, rfl⟩, fun e0 he => by simp at he; subst he; exact ⟨rfl, rfl⟩,
        fun d hd => by simp at hd⟩
    · simp only [refreshDashboardData, if_neg hlt, hb]
      cases b
      · exact ⟨⟨_, rfl⟩, fun e0 he => by simp at he; subst he; exact ⟨rfl, rfl⟩,
          fun d hd => by simp at hd⟩
      · simp only [hp]
        rcases t with _ | tid
        · simp only [ht, ht2]
          exact refreshAfterTab_acct env _ p true t2 [.query, .create] _
        · simp only [ht]
          exact refreshAfterTab_acct env _ p false (some tid) [.query] _
  · intro e hgate hperm
    have hne : ¬ env.now < st.nextAllowedRefreshAt := by omega
    simp [refreshDashboardData, if_neg hne, hperm]
  · intro e hgate hperm hprefs
    have hne : ¬ env.now < st.nextAllowedRefreshAt := by omega
    simp [refreshDashboardData, if_neg hne, hperm, hprefs]
  · intro e p hgate hperm hprefs hq
    have hne : ¬ env.now < st.nextAllowedRefreshAt := by omega
    simp [refreshDashboardData, if_neg hne, hperm, hprefs, hq]
  · intro e p hgate hperm hprefs hq hc
    have hne : ¬ env.now < st.nextAllowedRefreshAt := by omega
    simp [refreshDashboardData, if_neg hne, hperm, hprefs, hq, hc]

theorem error_boundary_witness :
    (∃ r0, (refreshDashboardData
        ⟨"manual", 1000, .ok false, .ok DEFAULT_PREFS, .ok none, .ok none, .ok (),
          .ok none, 1000⟩ ⟨0, none, none⟩).outcome = .ok r0) ∧
    (refreshDashboardData
        ⟨"manual", 1000, .ok false, .ok DEFAULT_PREFS, .ok none, .ok none, .ok (),
          .ok none, 1000⟩ ⟨0, none, none⟩).errorRecordWrites = 1 := by
  have h := (error_boundary
    ⟨"manual", 1000, .ok false, .ok DEFAULT_PREFS, .ok none, .ok none, .ok (), .ok none, 1000⟩
    ⟨0, none, none⟩).1 ⟨false, rfl⟩ ⟨DEFAULT_PREFS, rfl⟩ ⟨none, rfl⟩ ⟨none, rfl⟩
  exact ⟨h.1, (h.2.1 ⟨"manual", "missing_host_permission", none⟩ (by decide)).1⟩

lemma executeExtractGo_spec (A : Nat → Except String (Option ExtractResult)) :
    ∀ fuel attempt, 1 ≤ fuel →
      attempt ≤ (executeExtractGo A fuel attempt).2.1 ∧
      (executeExtractGo A fuel attempt).2.1 ≤ attempt + (fuel - 1) ∧
      (executeExtractGo A fuel attempt).2.2 =
        (List.range' attempt ((executeExtractGo A fuel attempt).2.1 - attempt)).map
          (fun i => 220 * i) ∧
      (∀ i, attempt ≤ i → i < (executeExtractGo A fuel attempt).2.1 →
        ∃ e, A i = .error e ∧ transientMsg e = true) ∧
      (∀ e, A attempt = .error e → transientMsg e = false →
        executeExtractGo A fuel attempt = (.error e, attempt, [])) ∧
      ((∀ i, attempt ≤ i → i ≤ attempt + (fuel - 1) →
          ∃ e, A i = .error e ∧ transientMsg e = true) →
        ∃ e, A (attempt + (fuel - 1)) = .error e ∧
          (executeExtractGo A fuel attempt).1 = .error e ∧
          (executeExtractGo A fuel attempt).2.1 = attempt + (fuel - 1)) := by
  intro fuel
  induction fuel with
  | zero => intro attempt h; exact absurd h (by omega)
  | succ f ih =>
    intro attempt _
    rcases hA : A attempt with e | r
    case error =>
      by_cases ht : transientMsg e
      · by_cases hf : f = 0
        · subst hf
          have hgo : executeExtractGo A (0 + 1) attempt = (.error e, attempt, []) := by
            simp [executeExtractGo, hA, ht]
          have h1c : (executeExtractGo A (0 + 1) attempt).1 = .error e := by rw [hgo]
          have h21 : (executeExtractGo A (0 + 1) attempt).2.1 = attempt := by rw [hgo]
          have h22 : (executeExtractGo A (0 + 1) attempt).2.2 = [] := by rw [hgo]
          refine ⟨by omega, by omega, by rw [h22, h21]; simp, ?_, ?_, ?_⟩
          · intro i hi1 hi2
            rw [h21] at hi2
            omega
          · intro e0 hAe h0
            injection hAe with hAe
            subst hAe
            simp [h0] at ht
          · intro _
            exact ⟨e, hA, h1c, by omega⟩
        · have hf1 : 1 ≤ f := by omega
          have hgo : executeExtractGo A (f + 1) attempt =
              ((executeExtractGo A f (attempt + 1)).1,
               (executeExtractGo A f (attempt + 1)).2.1,
               220 * attempt :: (executeExtractGo A f (attempt + 1)).2.2) := by
            simp [executeExtractGo, hA, ht, hf]
          have h1c : (executeExtractGo A (f + 1) attempt).1 =
              (executeExtractGo A f (attempt + 1)).1 := by rw [hgo]
          have h21 : (executeExtractGo A (f + 1) attempt).2.1 =
              (executeExtractGo A f (attempt + 1)).2.1 := by rw [hgo]
          have h22 : (executeExtractGo A (f + 1) attempt).2.2 =
              220 * attempt :: (executeExtractGo A f (attempt + 1)).2.2 := by rw [hgo]
          obtain ⟨ih1, ih2, ih3, ih4, ih5, ih6⟩ := ih (attempt + 1) hf1
          refine ⟨by omega, by omega, ?_, ?_, ?_, ?_⟩
          · rw [h22, h21]
            have hn : (executeExtractGo A f (attempt + 1)).2.1 - attempt =
                ((executeExtractGo A f (attempt + 1)).2.1 - (attempt + 1)) + 1 := by omega
            rw [hn, List.range'_succ]
            simp [ih3]
          · intro i hi1 hi2
            rw [h21] at hi2
            rcases Nat.eq_or_lt_of_le hi1 with heq | hlt
            · subst heq
              exact ⟨e, hA, ht⟩
            · exact ih4 i (by omega) hi2
          · intro e0 hAe h0
            injection hAe with hAe
            subst hAe
            simp [h0] at ht
          · intro H
            have H' : ∀ i, attempt + 1 ≤ i → i ≤ attempt + 1 + (f - 1) →
                ∃ e0, A i = .error e0 ∧ transientMsg e0 = true := by
              intro i h1 h2
              exact H i (by omega) (by omega)
            obtain ⟨e0, he0, hres, hn⟩ := ih6 H'
            have heq : attempt + 1 + (f - 1) = attempt + (f + 1 - 1) := by omega
            rw [heq] at he0 hn
            exact ⟨e0, he0, by rw [h1c]; exact hres, by rw [h21]; exact hn⟩
      · have hgo : executeExtractGo A (f + 1) attempt = (.error e, attempt, []) := by
          simp [executeExtractGo, hA, ht]
        have h1c : (executeExtractGo A (f + 1) attempt).1 = .error e := by rw [hgo]
        have h21 : (executeExtractGo A (f + 1) attempt).2.1 = attempt := by rw [hgo]
        have h22 : (executeExtractGo A (f + 1) attempt).2.2 = [] := by rw [hgo]
        refine ⟨by omega, by omega, by rw [h22, h21]; simp, ?_, ?_, ?_⟩
        · intro i hi1 hi2
          rw [h21] at hi2
          omega
        · intro e0 hAe h0
          injection hAe with hAe
          subst hAe
          rw [hgo]
        · intro H
          obtain ⟨e0, he0, htr⟩ := H attempt (le_refl _) (by omega)
          rw [hA] at he0
          injection he0 with he0
          subst he0
          exact absurd htr ht
    case ok =>
      have hgo : executeExtractGo A (f + 1) attempt = (.ok r, attempt, []) := by
        simp [executeExtractGo, hA]
      have h21 : (executeExtractGo A (f + 1) attempt).2.1 = attempt := by rw [hgo]
      have h22 : (executeExtractGo A (f + 1) attempt).2.2 = [] := by rw [hgo]
      refine ⟨by omega, by omega, by rw [h22, h21]; simp, ?_, ?_, ?_⟩
      · intro i hi1 hi2
        rw [h21] at hi2
        omega
      · intro e0 hAe _
        cases hAe
      · intro H
        obtain ⟨e0, he0, _⟩ := H attempt (le_refl _) (by omega)
        rw [hA] at he0
        cases he0

/-- C6: `executeExtractWithRetry` (at its call-site cap of 4) makes between 1
and 4 attempts, sleeps `220 * attemptNumber` before each retry, retries only
on attempts that threw a transient-frame-loss message, re-raises immediately
on the first non-matching error, and re-raises the last error after
exhausting all 4 attempts on transient errors. -/
theorem executeExtractWithRetry_policy (A : Nat → Except String (Option ExtractResult)) :
    1 ≤ (executeExtractWithRetry A).2.1 ∧
    (executeExtractWithRetry A).2.1 ≤ 4 ∧
    (executeExtractWithRetry A).2.2 =
      (List.range' 1 ((executeExtractWithRetry A).2.1 - 1)).map (fun i => 220 * i) ∧
    (∀ i, 1 ≤ i → i < (executeExtractWithRetry A).2.1 →
      ∃ e, A i = .error e ∧ transientMsg e = true) ∧
    (∀ e, A 1 = .error e → transientMsg e = false →
      executeExtractWithRetry A = (.error e, 1, [])) ∧
    ((∀ i, 1 ≤ i → i ≤ 4 → ∃ e, A i = .error e ∧ transientMsg e = true) →
      ∃ e, A 4 = .error e ∧ (executeExtractWithRetry A).1 = .error e ∧
        (executeExtractWithRetry A).2.1 = 4) := by
  obtain ⟨h1, h2, h3, h4, h5, h6⟩ := executeExtractGo_spec A 4 1 (by omega)
  exact ⟨h1, h2, h3, h4, h5, fun H => h6 (fun i a b => H i a b)⟩

theorem executeExtractWithRetry_policy_witness :
    transientMsg "boom" = false ∧
    executeExtractWithRetry (fun _ => Except.error "boom") = (.error "boom", 1, []) :=
  ⟨by decide,
   (executeExtractWithRetry_policy (fun _ => Except.error "boom")).2.2.2.2.1 "boom" rfl
     (by decide)⟩

lemma extractResultGo_spec (f : Nat → Option ExtractResult) :
    ∀ fuel attempt, 1 ≤ fuel →
      attempt ≤ (extractResultGo (fun i => .ok (f i)) fuel attempt).2.1 ∧
      (extractResultGo (fun i => .ok (f i)) fuel attempt).2.1 ≤ attempt + (fuel - 1) ∧
      (extractResultGo (fun i => .ok (f i)) fuel attempt).1 =
        .ok (f ((extractResultGo (fun i => .ok (f i)) fuel attempt).2.1)) ∧
      (extractResultGo (fun i => .ok (f i)) fuel attempt).2.2 =
        (List.range' attempt
          ((extractResultGo (fun i => .ok (f i)) fuel attempt).2.1 - attempt)).map
          (fun i => 300 * i) ∧
      (∀ i, attempt ≤ i → i < (extractResultGo (fun i => .ok (f i)) fuel attempt).2.1 →
        isOkRes (f i) = false ∧ resultRetryable (f i) = true) ∧
      (isOkRes (f attempt) = false → resultRetryable (f attempt) = false →
        extractResultGo (fun i => .ok (f i)) fuel attempt = (.ok (f attempt), attempt, [])) ∧
      ((∀ i, attempt ≤ i → i ≤ attempt + (fuel - 1) →
          isOkRes (f i) = false ∧ resultRetryable (f i) = true) →
        (extractResultGo (fun i => .ok (f i)) fuel attempt).2.1 = attempt + (fuel - 1)) := by
  intro fuel
  induction fuel with
  | zero => intro attempt h; exact absurd h (by omega)
  | succ g ih =>
    intro attempt _
    by_cases hok : isOkRes (f attempt)
    · have hgo : extractResultGo (fun i => .ok (f i)) (g + 1) attempt =
          (.ok (f attempt), attempt, []) := by
        simp [extractResultGo, hok]
      have h1c : (extractResultGo (fun i => .ok (f i)) (g + 1) attempt).1 =
          .ok (f attempt) := by rw [hgo]
      have h21 : (extractResultGo (fun i => .ok (f i)) (g + 1) attempt).2.1 = attempt := by
        rw [hgo]
      have h22 : (extractResultGo (fun i => .ok (f i)) (g + 1) attempt).2.2 = [] := by
        rw [hgo]
      refine ⟨by omega, by omega, by rw [h1c, h21], by rw [h22, h21]; simp, ?_, ?_, ?_⟩
      · intro i hi1 hi2
        rw [h21] at hi2
        omega
      · intro h1 _
        rw [hok] at h1
        cases h1
      · intro H
        obtain ⟨hfalse, _⟩ := H attempt (le_refl _) (by omega)
        rw [hok] at hfalse
        cases hfalse
    · rw [Bool.not_eq_true] at hok
      by_cases hr : resultRetryable (f attempt)
      · by_cases hg : g = 0
        · subst hg
          have hgo : extractResultGo (fun i => .ok (f i)) (0 + 1) attempt =
              (.ok (f attempt), attempt, []) := by
            simp [extractResultGo, hok, hr]
          have h1c : (extractResultGo (fun i => .ok (f i)) (0 + 1) attempt).1 =
              .ok (f attempt) := by rw [hgo]
          have h21 : (extractResultGo (fun i => .ok (f i)) (0 + 1) attempt).2.1 = attempt := by
            rw [hgo]
          have h22 : (extractResultGo (fun i => .ok (f i)) (0 + 1) attempt).2.2 = [] := by
            rw [hgo]
          refine ⟨by omega, by omega, by rw [h1c, h21], by rw [h22, h21]; simp, ?_, ?_, ?_⟩
          · intro i hi1 hi2
            rw [h21] at hi2
            omega
          · intro _ h2
            rw [hr] at h2
            cases h2
          · intro _
            omega
        · have hg1 : 1 ≤ g := by omega
          have hgo : extractResultGo (fun i => .ok (f i)) (g + 1) attempt =
              ((extractResultGo (fun i => .ok (f i)) g (attempt + 1)).1,
               (extractResultGo (fun i => .ok (f i)) g (attempt + 1)).2.1,
               300 * attempt :: (extractResultGo (fun i => .ok (f i)) g (attempt + 1)).2.2) := by
            simp [extractResultGo, hok, hr, hg]
          have h1c : (extractResultGo (fun i => .ok (f i)) (g + 1) attempt).1 =
              (extractResultGo (fun i => .ok (f i)) g (attempt + 1)).1 := by rw [hgo]
          have h21 : (extractResultGo (fun i => .ok (f i)) (g + 1) attempt).2.1 =
              (extractResultGo (fun i => .ok (f i)) g (attempt + 1)).2.1 := by rw [hgo]
          have h22 : (extractResultGo (fun i => .ok (f i)) (g + 1) attempt).2.2 =
              300 * attempt ::
                (extractResultGo (fun i => .ok (f i)) g (attempt + 1)).2.2 := by rw [hgo]
          obtain ⟨ih1, ih2, ih3, ih4, ih5, ih6, ih7⟩ := ih (attempt + 1) hg1
          refine ⟨by omega, by omega, by rw [h1c, h21]; exact ih3, ?_, ?_, ?_, ?_⟩
          · rw [h22, h21]
            have hn : (extractResultGo (fun i => .ok (f i)) g (attempt + 1)).2.1 - attempt =
                ((extractResultGo (fun i => .ok (f i)) g (attempt + 1)).2.1 -
                  (attempt + 1)) + 1 := by omega
            rw [hn, List.range'_succ]
            simp [ih4]
          · intro i hi1 hi2
            rw [h21] at hi2
            rcases Nat.eq_or_lt_of_le hi1 with heq | hlt
            · subst heq
              exact ⟨hok, hr⟩
            · exact ih5 i (by omega) hi2
          · intro _ h2
            rw [hr] at h2
            cases h2
          · intro H
            have hres := ih7 (fun i a b => H i (by omega) (by omega))
            rw [h21, hres]
            omega
      · rw [Bool.not_eq_true] at hr
        have hgo : extractResultGo (fun i => .ok (f i)) (g + 1) attempt =
            (.ok (f attempt), attempt, []) := by
          simp [extractResultGo, hok, hr]
        have h1c : (extractResultGo (fun i => .ok (f i)) (g + 1) attempt).1 =
            .ok (f attempt) := by rw [hgo]
        have h21 : (extractResultGo (fun i => .ok (f i)) (g + 1) attempt).2.1 = attempt := by
          rw [hgo]
        have h22 : (extractResultGo (fun i => .ok (f i)) (g + 1) attempt).2.2 = [] := by
          rw [hgo]
        refine ⟨by omega, by omega, by rw [h1c, h21], by rw [h22, h21]; simp, ?_, ?_, ?_⟩
        · intro i hi1 hi2
          rw [h21] at hi2
          omega
        · intro _ _
          exact hgo
        · intro H
          obtain ⟨_, htrue⟩ := H attempt (le_refl _) (by omega)
          rw [htrue] at hr
          cases hr

/-- C7: `extractDashboardWithResultRetry` (at its call-site cap of 3), on
structured results (no inner throw), makes between 1 and 3 attempts, always
returns the last attempt's result as a value rather than throwing, sleeps
`300 * attemptNumber` before each retry, retries only on `{ok:false}` results
whose error is `main_not_found` or `dashboard_data_not_ready`, returns any
other failing result immediately, and after 3 retryable failures returns the
third. -/
theorem extractResultRetry_policy (f : Nat → Option ExtractResult) :
    1 ≤ (extractDashboardWithResultRetry (fun i => .ok (f i))).2.1 ∧
    (extractDashboardWithResultRetry (fun i => .ok (f i))).2.1 ≤ 3 ∧
    (extractDashboardWithResultRetry (fun i => .ok (f i))).1 =
      .ok (f ((extractDashboardWithResultRetry (fun i => .ok (f i))).2.1)) ∧
    (extractDashboardWithResultRetry (fun i => .ok (f i))).2.2 =
      (List.range' 1 ((extractDashboardWithResultRetry (fun i => .ok (f i))).2.1 - 1)).map
        (fun i => 300 * i) ∧
    (∀ i, 1 ≤ i → i < (extractDashboardWithResultRetry (fun i => .ok (f i))).2.1 →
      isOkRes (f i) = false ∧ resultRetryable (f i) = true) ∧
    (isOkRes (f 1) = false → resultRetryable (f 1) = false →
      extractDashboardWithResultRetry (fun i => .ok (f i)) = (.ok (f 1), 1, [])) ∧
    ((∀ i, 1 ≤ i → i ≤ 3 → isOkRes (f i) = false ∧ resultRetryable (f i) = true) →
      (extractDashboardWithResultRetry (fun i => .ok (f i))).2.1 = 3) := by
  obtain ⟨h1, h2, h3, h4, h5, h6, h7⟩ := extractResultGo_spec f 3 1 (by omega)
  exact ⟨h1, h2, h3, h4, h5, h6, fun H => h7 (fun i a b => H i a b)⟩

theorem extractResultRetry_policy_witness :
    isOkRes (some ⟨false, some "dashboard_data_not_ready"⟩) = false ∧
    resultRetryable (some ⟨false, some "dashboard_data_not_ready"⟩) = true ∧
    (extractDashboardWithResultRetry
      (fun _ => Except.ok (some ⟨false, some "dashboard_data_not_ready"⟩))).2.1 = 3 ∧
    (extractDashboardWithResultRetry
      (fun _ => Except.ok (some ⟨false, some "dashboard_data_not_ready"⟩))).1 =
      Except.ok (some ⟨false, some "dashboard_data_not_ready"⟩) := by
  have h := extractResultRetry_policy (fun _ => some ⟨false, some "dashboard_data_not_ready"⟩)
  refine ⟨by decide, by decide, h.2.2.2.2.2.2 (fun i _ _ => ⟨by decide, by decide⟩), ?_⟩
  exact h.2.2.1
